import Mathlib

/-!
Verification development for the ttt-cli core: the TinyBase-backed store
client (`src/api.ts`), the durable undo ledger (`src/undo-history.ts`),
the daemon's IPC request dispatch (`src/daemon.ts`) and the supervisor's
response-correlation logic (`src/daemon-client.ts`), shallowly embedded
as executable Lean definitions, together with theorems settling the
specification's claims about them.
-/

namespace Ttt

/-! ## JavaScript-style defaulting helpers

The source uses `x || default` pervasively when writing rows.  A JS
`||` returns the right operand when the left is falsy: for strings the
falsy value is `""`, for numbers `0`, for booleans `false`, and
`undefined`/absent is always falsy.  Optional inputs are modelled as
`Option`; `none` is the absent/`undefined` case. -/

/-- JS `o || d` for an optional string argument (`undefined` and `""` are falsy). -/
def jsOrS (o : Option String) (d : String) : String :=
  match o with
  | none => d
  | some s => if s = "" then d else s

/-- JS `o || d` for an optional number argument (`undefined` and `0` are falsy). -/
def jsOrI (o : Option Int) (d : Int) : Int :=
  match o with
  | none => d
  | some n => if n = 0 then d else n

/-- JS `o || d` for an optional boolean argument (`undefined` and `false` are falsy). -/
def jsOrB (o : Option Bool) (d : Bool) : Bool :=
  match o with
  | none => d
  | some b => if b then b else d

/-- JS truthiness of an optional string (used for `if (listId)` and `if (res.error)`). -/
def strTruthy (o : Option String) : Bool :=
  match o with
  | none => false
  | some s => s ≠ ""

/-! ## Tables

A TinyBase table is a row map keyed by id.  Modelled as an association
list: `tblGet` is `getRow` (first match), `tblSet` is `setRow`
(replace in place or append), `tblDel` is `delRow` (remove the key). -/

/-- Row lookup in a table keyed by string ids (`store.getRow`). -/
def tblGet {α : Type} : List (String × α) → String → Option α
  | [], _ => none
  | (k, v) :: rest, i => if k = i then some v else tblGet rest i

/-- Row write (`store.setRow`): replaces the row at an existing key in
place, appends the key otherwise (JS object key order). -/
def tblSet {α : Type} : List (String × α) → String → α → List (String × α)
  | [], i, v => [(i, v)]
  | (k, w) :: rest, i, v =>
      if k = i then (k, v) :: rest else (k, w) :: tblSet rest i v

/-- Row removal (`store.delRow`): drops every entry at the key. -/
def tblDel {α : Type} (t : List (String × α)) (i : String) : List (String × α) :=
  t.filter (fun p => p.1 ≠ i)

/-! ## Data model: todo and list rows

Rows written by the client always carry every cell (`addTodo`,
`restoreTodo`, `createList` and `restoreList` write full rows), so a
stored row is a flat record of concrete cell values.  The `Todo` and
`ListRec` records passed across the API keep the TS interfaces'
optional fields as `Option`. -/

/-- Cells of a row of the `todos` table. -/
structure TodoRow where
  list : String
  text : String
  notes : String
  date : String
  time : String
  url : String
  emoji : String
  email : String
  streetAddress : String
  number : Int
  amount : Int
  fiveStarRating : Int
  done : Bool
  type : String
  category : String
deriving DecidableEq

/-- Cells of a row of the `lists` table (as written by `createList` /
`restoreList`: the eight `List`-interface cells plus `number` and `code`). -/
structure ListRow where
  name : String
  purpose : String
  systemPrompt : String
  backgroundColour : String
  icon : String
  number : Int
  template : String
  code : String
  type : String
deriving DecidableEq

/-- The `Todo` interface: id plus the row fields, optional ones as `Option`. -/
structure Todo where
  id : String
  list : String
  text : String
  notes : Option String := none
  date : Option String := none
  time : Option String := none
  url : Option String := none
  emoji : Option String := none
  email : Option String := none
  streetAddress : Option String := none
  number : Option Int := none
  amount : Option Int := none
  fiveStarRating : Option Int := none
  done : Option Bool := none
  type : Option String := none
  category : Option String := none
deriving DecidableEq

/-- The `List` interface record (named `ListRec` to avoid clashing with `List`). -/
structure ListRec where
  id : String
  name : String
  purpose : Option String := none
  systemPrompt : Option String := none
  backgroundColour : Option String := none
  icon : Option String := none
  type : Option String := none
  template : Option String := none
deriving DecidableEq

/-- Tables of the mergeable store held by one `TttClient`. -/
structure ClientState where
  lists : List (String × ListRow)
  todos : List (String × TodoRow)
deriving DecidableEq

/-! ## Field maps

`Partial<...>` argument objects.  A TS object key can be absent,
present with value `undefined`, or present with a value; `Object.keys`
sees the middle state but `value !== undefined` filters it out, so the
three states are modelled explicitly by `FieldVal`. -/

/-- State of one key of a `Partial` fields object. -/
inductive FieldVal (α : Type) where
  | absent : FieldVal α
  | undef : FieldVal α
  | val : α → FieldVal α
deriving DecidableEq

/-- Value to store for a key: `val v` overwrites, otherwise the old cell is kept. -/
def applyField {α : Type} (fv : FieldVal α) (old : α) : α :=
  match fv with
  | .val v => v
  | _ => old

/-- Snapshot of a key for `previousFields`: captured iff the key is present. -/
def snapField {α β : Type} (fv : FieldVal α) (old : β) : Option β :=
  match fv with
  | .absent => none
  | _ => some old

/-- Present value of a key as an optional argument (absent and
`undefined` both read back as `undefined`). -/
def fieldOpt {α : Type} (fv : FieldVal α) : Option α :=
  match fv with
  | .val v => some v
  | _ => none

/-- `TodoFields = Partial<Omit<Todo, "id" | "list" | "text" | "done">>`
(the optional fields argument of `addTodo`). -/
structure TodoFields where
  notes : Option String := none
  date : Option String := none
  time : Option String := none
  url : Option String := none
  emoji : Option String := none
  email : Option String := none
  streetAddress : Option String := none
  number : Option Int := none
  amount : Option Int := none
  fiveStarRating : Option Int := none
  type : Option String := none
  category : Option String := none
deriving DecidableEq

/-- `Partial<Omit<Todo, "id" | "list">>` (the fields argument of `updateTodo`). -/
structure TodoUpdateFields where
  text : FieldVal String := .absent
  notes : FieldVal String := .absent
  date : FieldVal String := .absent
  time : FieldVal String := .absent
  url : FieldVal String := .absent
  emoji : FieldVal String := .absent
  email : FieldVal String := .absent
  streetAddress : FieldVal String := .absent
  number : FieldVal Int := .absent
  amount : FieldVal Int := .absent
  fiveStarRating : FieldVal Int := .absent
  done : FieldVal Bool := .absent
  type : FieldVal String := .absent
  category : FieldVal String := .absent
deriving DecidableEq

/-- `Partial<Todo>` as produced for `previousFields` by `updateTodo`. -/
structure TodoPartial where
  text : Option String := none
  notes : Option String := none
  date : Option String := none
  time : Option String := none
  url : Option String := none
  emoji : Option String := none
  email : Option String := none
  streetAddress : Option String := none
  number : Option Int := none
  amount : Option Int := none
  fiveStarRating : Option Int := none
  done : Option Bool := none
  type : Option String := none
  category : Option String := none
deriving DecidableEq

/-- `ListFields = Partial<Omit<List, "id">>` (the fields argument of `updateList`). -/
structure ListFields where
  name : FieldVal String := .absent
  purpose : FieldVal String := .absent
  systemPrompt : FieldVal String := .absent
  backgroundColour : FieldVal String := .absent
  icon : FieldVal String := .absent
  type : FieldVal String := .absent
  template : FieldVal String := .absent
deriving DecidableEq

/-- `Partial<List>` as produced for `previousFields` by `updateList`. -/
structure ListPartial where
  name : Option String := none
  purpose : Option String := none
  systemPrompt : Option String := none
  backgroundColour : Option String := none
  icon : Option String := none
  type : Option String := none
  template : Option String := none
deriving DecidableEq

/-- `BatchUpdateResult` of `updateTodo` / `batchUpdateTodos`. -/
structure BatchUpdateResult where
  id : String
  previousFields : TodoPartial
deriving DecidableEq

/-- `ListUpdateResult` of `updateList`. -/
structure ListUpdateResult where
  id : String
  previousFields : ListPartial
deriving DecidableEq

/-- `BatchUpdateItem` of `batchUpdateTodos`. -/
structure BatchUpdateItem where
  id : String
  fields : TodoUpdateFields
deriving DecidableEq

/-- `BatchAddItem` of `batchAddTodos`. -/
structure BatchAddItem where
  text : String
  fields : Option TodoFields := none
deriving DecidableEq

/-- Options object of `createList`. -/
structure CreateListOptions where
  color : Option String := none
  type : Option String := none
  icon : Option String := none
deriving DecidableEq

/-! ## TttClient store operations (`src/api.ts`)

Fresh ids (`list_${Date.now()}_${random}`, `todo_...`) are
nondeterministic in the source; they are taken as explicit inputs
here.  Operations that can throw return `Except String α` paired with
the resulting state; the `.error` case pairs with the unchanged state,
since every throw in the source happens before any mutation. -/

/-- The `List` record built from a row by `getLists` and `deleteList`
(`name` defaulted with `|| ""`, the other cells cast as-is). -/
def listOfRow (i : String) (r : ListRow) : ListRec :=
  { id := i
    name := jsOrS (some r.name) ""
    purpose := some r.purpose
    systemPrompt := some r.systemPrompt
    backgroundColour := some r.backgroundColour
    icon := some r.icon
    type := some r.type
    template := some r.template }

/-- The `Todo` record built from a row by `getTodos`, `markTodoDone`,
`deleteTodo` and `markTodoUndone` (all four build this same literal:
`list` and `text` defaulted with `|| ""`, the rest cast as-is). -/
def todoOfRow (i : String) (r : TodoRow) : Todo :=
  { id := i
    list := jsOrS (some r.list) ""
    text := jsOrS (some r.text) ""
    notes := some r.notes
    date := some r.date
    time := some r.time
    url := some r.url
    emoji := some r.emoji
    email := some r.email
    streetAddress := some r.streetAddress
    number := some r.number
    amount := some r.amount
    fiveStarRating := some r.fiveStarRating
    done := some r.done
    type := some r.type
    category := some r.category }

/-- `TttClient.getLists`. -/
def getLists (st : ClientState) : List ListRec :=
  st.lists.map (fun p => listOfRow p.1 p.2)

/-- `TttClient.getTodos(listId?)`: enumerate, then filter when
`listId` is truthy (`if (listId)`, so an empty string does not filter). -/
def getTodos (st : ClientState) (listId : Option String) : List Todo :=
  let todos := st.todos.map (fun p => todoOfRow p.1 p.2)
  if strTruthy listId then todos.filter (fun t => t.list = listId.getD "") else todos

/-- `TttClient.findListByNameOrId`: first list matching by exact id or
case-insensitive name. -/
def findListByNameOrId (st : ClientState) (nameOrId : String) : Option ListRec :=
  (getLists st).find? (fun l => l.id == nameOrId || l.name.toLower == nameOrId.toLower)

/-- Row written by `createList` (documented defaults for unspecified fields). -/
def mkListRow (name : String) (o : CreateListOptions) : ListRow :=
  { name := name
    purpose := ""
    systemPrompt := ""
    backgroundColour := jsOrS o.color "blue"
    icon := jsOrS o.icon ""
    number := 0
    template := ""
    code := ""
    type := jsOrS o.type "Info" }

/-- `TttClient.createList` with the generated id `i` taken as input. -/
def createList (st : ClientState) (i : String) (name : String) (o : CreateListOptions) :
    ClientState :=
  { st with lists := tblSet st.lists i (mkListRow name o) }

/-- The `previousFields` snapshot of `updateList`: one entry per key
present in `fields`, holding the pre-update cell value. -/
def snapListPrev (f : ListFields) (r : ListRow) : ListPartial :=
  { name := snapField f.name r.name
    purpose := snapField f.purpose r.purpose
    systemPrompt := snapField f.systemPrompt r.systemPrompt
    backgroundColour := snapField f.backgroundColour r.backgroundColour
    icon := snapField f.icon r.icon
    type := snapField f.type r.type
    template := snapField f.template r.template }

/-- The `setCell` loop of `updateList`: a key is written only when its
value is not `undefined`. -/
def applyListFields (f : ListFields) (r : ListRow) : ListRow :=
  { r with
    name := applyField f.name r.name
    purpose := applyField f.purpose r.purpose
    systemPrompt := applyField f.systemPrompt r.systemPrompt
    backgroundColour := applyField f.backgroundColour r.backgroundColour
    icon := applyField f.icon r.icon
    type := applyField f.type r.type
    template := applyField f.template r.template }

/-- `TttClient.updateList`. -/
def updateList (st : ClientState) (listId : String) (f : ListFields) :
    Except String ListUpdateResult × ClientState :=
  match tblGet st.lists listId with
  | none => (.error ("List not found: " ++ listId), st)
  | some r =>
      (.ok { id := listId, previousFields := snapListPrev f r },
       { st with lists := tblSet st.lists listId (applyListFields f r) })

/-- `TttClient.deleteList`: capture the record, then `delRow`. -/
def deleteList (st : ClientState) (listId : String) :
    Except String ListRec × ClientState :=
  match tblGet st.lists listId with
  | none => (.error ("List not found: " ++ listId), st)
  | some r =>
      (.ok (listOfRow listId r), { st with lists := tblDel st.lists listId })

/-- Row written by `TttClient.restoreList` for a `List` record. -/
def restoreListRow (l : ListRec) : ListRow :=
  { name := jsOrS (some l.name) ""
    purpose := jsOrS l.purpose ""
    systemPrompt := jsOrS l.systemPrompt ""
    backgroundColour := jsOrS l.backgroundColour "blue"
    icon := jsOrS l.icon ""
    number := 0
    template := jsOrS l.template ""
    code := ""
    type := jsOrS l.type "Info" }

/-- `TttClient.restoreList`: re-insert the row under the record's own id. -/
def restoreList (st : ClientState) (l : ListRec) : ClientState :=
  { st with lists := tblSet st.lists l.id (restoreListRow l) }

/-- Row written by `addTodo` (documented defaults: rating 1, type "A"). -/
def mkTodoRow (listId text : String) (f : TodoFields) : TodoRow :=
  { list := listId
    text := text
    notes := jsOrS f.notes ""
    date := jsOrS f.date ""
    time := jsOrS f.time ""
    url := jsOrS f.url ""
    emoji := jsOrS f.emoji ""
    email := jsOrS f.email ""
    streetAddress := jsOrS f.streetAddress ""
    number := jsOrI f.number 0
    amount := jsOrI f.amount 0
    fiveStarRating := jsOrI f.fiveStarRating 1
    done := false
    type := jsOrS f.type "A"
    category := jsOrS f.category "" }

/-- `TttClient.addTodo` with the generated id `i` taken as input. -/
def addTodo (st : ClientState) (i listId text : String) (f : TodoFields) : ClientState :=
  { st with todos := tblSet st.todos i (mkTodoRow listId text f) }

/-- `TttClient.markTodoDone`: fail when absent, else capture the prior
record and set the `done` cell to `true`. -/
def markTodoDone (st : ClientState) (todoId : String) :
    Except String Todo × ClientState :=
  match tblGet st.todos todoId with
  | none => (.error ("Todo not found: " ++ todoId), st)
  | some r =>
      (.ok (todoOfRow todoId r),
       { st with todos := tblSet st.todos todoId { r with done := true } })

/-- `TttClient.markTodoUndone`: fail when absent, else capture the
prior record and set the `done` cell to `false`. -/
def markTodoUndone (st : ClientState) (todoId : String) :
    Except String Todo × ClientState :=
  match tblGet st.todos todoId with
  | none => (.error ("Todo not found: " ++ todoId), st)
  | some r =>
      (.ok (todoOfRow todoId r),
       { st with todos := tblSet st.todos todoId { r with done := false } })

/-- `TttClient.deleteTodo`: fail when absent, else capture the full
record and `delRow` it. -/
def deleteTodo (st : ClientState) (todoId : String) :
    Except String Todo × ClientState :=
  match tblGet st.todos todoId with
  | none => (.error ("Todo not found: " ++ todoId), st)
  | some r =>
      (.ok (todoOfRow todoId r), { st with todos := tblDel st.todos todoId })

/-- The `previousFields` snapshot of `updateTodo`. -/
def snapTodoPrev (f : TodoUpdateFields) (r : TodoRow) : TodoPartial :=
  { text := snapField f.text r.text
    notes := snapField f.notes r.notes
    date := snapField f.date r.date
    time := snapField f.time r.time
    url := snapField f.url r.url
    emoji := snapField f.emoji r.emoji
    email := snapField f.email r.email
    streetAddress := snapField f.streetAddress r.streetAddress
    number := snapField f.number r.number
    amount := snapField f.amount r.amount
    fiveStarRating := snapField f.fiveStarRating r.fiveStarRating
    done := snapField f.done r.done
    type := snapField f.type r.type
    category := snapField f.category r.category }

/-- The `setCell` loop of `updateTodo`: a key is written only when its
value is not `undefined`. -/
def applyTodoFields (f : TodoUpdateFields) (r : TodoRow) : TodoRow :=
  { r with
    text := applyField f.text r.text
    notes := applyField f.notes r.notes
    date := applyField f.date r.date
    time := applyField f.time r.time
    url := applyField f.url r.url
    emoji := applyField f.emoji r.emoji
    email := applyField f.email r.email
    streetAddress := applyField f.streetAddress r.streetAddress
    number := applyField f.number r.number
    amount := applyField f.amount r.amount
    fiveStarRating := applyField f.fiveStarRating r.fiveStarRating
    done := applyField f.done r.done
    type := applyField f.type r.type
    category := applyField f.category r.category }

/-- `TttClient.updateTodo`. -/
def updateTodo (st : ClientState) (todoId : String) (f : TodoUpdateFields) :
    Except String BatchUpdateResult × ClientState :=
  match tblGet st.todos todoId with
  | none => (.error ("Todo not found: " ++ todoId), st)
  | some r =>
      (.ok { id := todoId, previousFields := snapTodoPrev f r },
       { st with todos := tblSet st.todos todoId (applyTodoFields f r) })

/-- `TttClient.batchAddTodos`, generated ids taken as inputs paired
with their items (`item.fields || {}` defaults a missing fields object). -/
def batchAddTodos (st : ClientState) (listId : String)
    (itemsWithIds : List (String × BatchAddItem)) : ClientState :=
  itemsWithIds.foldl
    (fun s p =>
      { s with todos := tblSet s.todos p.1 (mkTodoRow listId p.2.text (p.2.fields.getD {})) })
    st

/-- `TttClient.batchUpdateTodos`: ids not found are silently skipped. -/
def batchUpdateTodos (st : ClientState) (updates : List BatchUpdateItem) :
    List BatchUpdateResult × ClientState :=
  updates.foldl
    (fun (acc : List BatchUpdateResult × ClientState) u =>
      match tblGet acc.2.todos u.id with
      | none => acc
      | some r =>
          (acc.1 ++ [{ id := u.id, previousFields := snapTodoPrev u.fields r }],
           { acc.2 with todos := tblSet acc.2.todos u.id (applyTodoFields u.fields r) }))
    ([], st)

/-- `TttClient.batchDeleteTodos`: one transaction of `delRow` calls;
never throws (deleting an absent row is a no-op). -/
def batchDeleteTodos (st : ClientState) (todoIds : List String) :
    Except String Unit × ClientState :=
  (.ok (), { st with todos := todoIds.foldl (fun t i => tblDel t i) st.todos })

/-- Row written by `TttClient.restoreTodo` for a `Todo` record. -/
def restoreTodoRow (t : Todo) : TodoRow :=
  { list := jsOrS (some t.list) ""
    text := jsOrS (some t.text) ""
    notes := jsOrS t.notes ""
    date := jsOrS t.date ""
    time := jsOrS t.time ""
    url := jsOrS t.url ""
    emoji := jsOrS t.emoji ""
    email := jsOrS t.email ""
    streetAddress := jsOrS t.streetAddress ""
    number := jsOrI t.number 0
    amount := jsOrI t.amount 0
    fiveStarRating := jsOrI t.fiveStarRating 1
    done := jsOrB t.done false
    type := jsOrS t.type "A"
    category := jsOrS t.category "" }

/-- `TttClient.restoreTodo`: re-insert the row under the record's own id. -/
def restoreTodo (st : ClientState) (t : Todo) : ClientState :=
  { st with todos := tblSet st.todos t.id (restoreTodoRow t) }

/-! ## Undo ledger (`src/undo-history.ts`)

Each ledger operation is read-modify-write on the persisted
`{entries, maxEntries}` file; the state passed in and returned here is
that persisted content. -/

/-- Tagged inverse actions (`UndoAction`). -/
inductive UndoAction where
  | deleteTodo (todoId : String)
  | batchDeleteTodos (todoIds : List String)
  | restoreTodo (todo : Todo)
  | restoreFields (updates : List BatchUpdateItem)
  | deleteList (listId : String)
  | restoreList (list : ListRec)
  | restoreListFields (listId : String) (fields : ListFields)
deriving DecidableEq

/-- One ledger entry (`UndoEntry`). -/
structure UndoEntry where
  id : String
  timestamp : Nat
  operation : String
  description : String
  undo : UndoAction
deriving DecidableEq

/-- Persisted ledger content (`UndoHistoryData`). -/
structure UndoHistoryData where
  entries : List UndoEntry
  maxEntries : Nat
deriving DecidableEq

/-- The pruning loop of `recordUndo`:
`while (entries.length > maxEntries) entries.shift()`. -/
def pruneEntries (es : List UndoEntry) (maxE : Nat) : List UndoEntry :=
  if es.length > maxE then pruneEntries es.tail maxE else es
termination_by es.length
decreasing_by simp only [List.length_tail]; omega

/-- `recordUndo`: append the new entry, prune oldest-first past the
capacity, save.  The generated entry is taken as input. -/
def recordUndo (st : UndoHistoryData) (e : UndoEntry) : UndoHistoryData :=
  { entries := pruneEntries (st.entries ++ [e]) st.maxEntries
    maxEntries := st.maxEntries }

/-- A sequence of `recordUndo` appends. -/
def recordUndoSeq (st : UndoHistoryData) (es : List UndoEntry) : UndoHistoryData :=
  es.foldl recordUndo st

/-- `getUndoEntries(limit?)`: most-recent-first view, optionally truncated. -/
def getUndoEntries (st : UndoHistoryData) (limit : Option Nat) : List UndoEntry :=
  let entries := st.entries.reverse
  match limit with
  | some n => entries.take n
  | none => entries

/-- The pop loop of `popUndoEntries`:
`for (i < count && entries.length > 0) popped.push(entries.pop())`. -/
def popN : Nat → List UndoEntry → List UndoEntry × List UndoEntry
  | 0, es => ([], es)
  | n + 1, es =>
      match es.getLast? with
      | none => ([], es)
      | some last =>
          let (ps, fin) := popN n es.dropLast
          (last :: ps, fin)

/-- `popUndoEntries(count)`: remove up to `count` entries from the
newest end, save the shortened ledger, return them most-recent-first. -/
def popUndoEntries (st : UndoHistoryData) (count : Nat) :
    List UndoEntry × UndoHistoryData :=
  let (popped, rest) := popN count st.entries
  (popped, { entries := rest, maxEntries := st.maxEntries })

/-- `executeUndo`: dispatch an inverse action to the matching client
operation (results are awaited and discarded; a throw propagates). -/
def executeUndo (st : ClientState) (a : UndoAction) : Except String ClientState :=
  match a with
  | .deleteTodo todoId =>
      match deleteTodo st todoId with
      | (.ok _, st') => .ok st'
      | (.error e, _) => .error e
  | .batchDeleteTodos todoIds =>
      match batchDeleteTodos st todoIds with
      | (.ok _, st') => .ok st'
      | (.error e, _) => .error e
  | .restoreTodo todo => .ok (restoreTodo st todo)
  | .restoreFields updates => .ok (batchUpdateTodos st updates).2
  | .deleteList listId =>
      match deleteList st listId with
      | (.ok _, st') => .ok st'
      | (.error e, _) => .error e
  | .restoreList l => .ok (restoreList st l)
  | .restoreListFields listId fields =>
      match updateList st listId fields with
      | (.ok _, st') => .ok st'
      | (.error e, _) => .error e

/-! ## The `undo` command (`src/index.tsx`)

The command first calls `popUndoEntries(count)` — which persists the
shortened ledger — and only then obtains a client and replays the
popped inverse actions one by one.  Connecting is modelled by the
`connectOk` flag (`getClient` either yields a client or throws). -/

/-- Replay loop of the `undo` command: execute each popped entry's
inverse action in order, collecting descriptions, stopping at the
first failure. -/
def replayEntries (st : ClientState) : List UndoEntry →
    Except String (ClientState × List String)
  | [] => .ok (st, [])
  | e :: rest =>
      match executeUndo st e.undo with
      | .error msg => .error msg
      | .ok st' =>
          match replayEntries st' rest with
          | .error msg => .error msg
          | .ok (st'', descs) => .ok (st'', e.description :: descs)

/-- The `undo [count]` command action.  Returns the persisted ledger
(always the popped one) and the command outcome. -/
def undoCommand (ledger : UndoHistoryData) (count : Nat) (connectOk : Bool)
    (st : ClientState) :
    UndoHistoryData × Except String (ClientState × List String) :=
  let (entries, ledger') := popUndoEntries ledger count
  if entries.isEmpty then (ledger', .error "No operations to undo")
  else if connectOk then (ledger', replayEntries st entries)
  else (ledger', .error "connect failed")

/-! ## Daemon IPC (`src/daemon.ts`)

Requests carry a correlation id, a method name and an argument array.
Argument values are modelled by the typed shapes the supervisor sends;
an argument that fails to match the shape a handler casts it to is
modelled as a caught runtime error (an `{id, error}` response), a path
no well-typed caller reaches. -/

/-- A JSON argument value, in the shapes the supervisor sends. -/
inductive ArgVal where
  | vStr (s : String)
  | vTodoFields (f : TodoFields)
  | vUpdFields (f : TodoUpdateFields)
  | vListFields (f : ListFields)
  | vListOpts (o : CreateListOptions)
  | vTodo (t : Todo)
  | vList (l : ListRec)
  | vStrs (ss : List String)
  | vItems (items : List BatchAddItem)
  | vUpdates (us : List BatchUpdateItem)
deriving DecidableEq

/-- `IpcRequest`: `{id, method, args[]}`. -/
structure IpcRequest where
  id : String
  method : String
  args : List ArgVal
deriving DecidableEq

/-- A method result value (`result` of a success response). -/
inductive ResultVal where
  | rStr (s : String)
  | rStrs (ss : List String)
  | rTodo (t : Todo)
  | rTodos (ts : List Todo)
  | rLists (ls : List ListRec)
  | rListOpt (l : Option ListRec)
  | rList (l : ListRec)
  | rUpd (r : BatchUpdateResult)
  | rUpds (rs : List BatchUpdateResult)
  | rListUpd (r : ListUpdateResult)
  | rPing (pid : Nat) (uptime : Nat) (version : String)
  | rOk
deriving DecidableEq

/-- `IpcResponse`: `{id, result?}` or `{id, error?}`; a void result is
`result = none` (`undefined`). -/
structure IpcResponse where
  id : String
  result : Option ResultVal := none
  error : Option String := none
deriving DecidableEq

/-- The daemon's mutable globals: process identity, activity clock,
version, the live client's store, and the fresh-id counter.  A
`shutdown` request schedules termination; the flag records it. -/
structure DaemonState where
  pid : Nat
  startedAt : Nat
  lastActivity : Nat
  version : String
  idCounter : Nat
  store : ClientState
  shutdownScheduled : Bool := false
deriving DecidableEq

/-- Fresh-id supply, modelling `` `${Date.now()}_${random}` ``
generation as a counter-indexed stream. -/
def genId (n : Nat) : String := "id_" ++ toString n

/-- String argument at position `i` (absent or non-string reads as `undefined`). -/
def argStr? (args : List ArgVal) (i : Nat) : Option String :=
  match args[i]? with
  | some (.vStr s) => some s
  | _ => none

/-- Options argument of `createList`: `(req.args[1] as any) || {}`. -/
def argOpts (args : List ArgVal) (i : Nat) : CreateListOptions :=
  match args[i]? with
  | some (.vListOpts o) => o
  | _ => {}

/-- Fields argument of `addTodo`: `(req.args[2] as any) || {}`. -/
def argTodoFields (args : List ArgVal) (i : Nat) : TodoFields :=
  match args[i]? with
  | some (.vTodoFields f) => f
  | _ => {}

/-- Update-fields argument of `updateTodo`. -/
def argUpdFields? (args : List ArgVal) (i : Nat) : Option TodoUpdateFields :=
  match args[i]? with
  | some (.vUpdFields f) => some f
  | _ => none

/-- Fields argument of `updateList`. -/
def argListFields? (args : List ArgVal) (i : Nat) : Option ListFields :=
  match args[i]? with
  | some (.vListFields f) => some f
  | _ => none

/-- `List`-record argument of `restoreList`. -/
def argList? (args : List ArgVal) (i : Nat) : Option ListRec :=
  match args[i]? with
  | some (.vList l) => some l
  | _ => none

/-- `Todo`-record argument of `restoreTodo`. -/
def argTodo? (args : List ArgVal) (i : Nat) : Option Todo :=
  match args[i]? with
  | some (.vTodo t) => some t
  | _ => none

/-- String-array argument of `batchDeleteTodos`. -/
def argStrs? (args : List ArgVal) (i : Nat) : Option (List String) :=
  match args[i]? with
  | some (.vStrs ss) => some ss
  | _ => none

/-- Items argument of `batchAddTodos`. -/
def argItems? (args : List ArgVal) (i : Nat) : Option (List BatchAddItem) :=
  match args[i]? with
  | some (.vItems its) => some its
  | _ => none

/-- Updates argument of `batchUpdateTodos`. -/
def argUpdates? (args : List ArgVal) (i : Nat) : Option (List BatchUpdateItem) :=
  match args[i]? with
  | some (.vUpdates us) => some us
  | _ => none

/-- Response for a request whose arguments do not fit the handler's
casts (the resulting runtime error is caught into `{id, error}`). -/
def badArgsResp (st : DaemonState) (rid : String) : DaemonState × IpcResponse :=
  (st, { id := rid, error := some "invalid arguments" })

/-- The method names of the daemon's dispatch table, in switch order. -/
def knownMethods : List String :=
  ["ping", "shutdown", "getLists", "getTodos", "findListByNameOrId",
   "createList", "updateList", "deleteList", "restoreList", "addTodo",
   "markTodoDone", "deleteTodo", "updateTodo", "markTodoUndone",
   "batchAddTodos", "batchUpdateTodos", "batchDeleteTodos", "restoreTodo"]

/-- `handleRequest`: bump the idle clock, dispatch on the method name;
a store operation's throw is caught into `{id, error: message}`;
an unknown method yields `{id, error: "Unknown method: <name>"}`. -/
def handleRequest (now : Nat) (st0 : DaemonState) (req : IpcRequest) :
    DaemonState × IpcResponse :=
  let st := { st0 with lastActivity := now }
  if req.method = "ping" then
    (st, { id := req.id,
           result := some (.rPing st.pid ((now - st.startedAt) / 1000) st.version) })
  else if req.method = "shutdown" then
    ({ st with shutdownScheduled := true }, { id := req.id, result := some .rOk })
  else if req.method = "getLists" then
    (st, { id := req.id, result := some (.rLists (getLists st.store)) })
  else if req.method = "getTodos" then
    (st, { id := req.id, result := some (.rTodos (getTodos st.store (argStr? req.args 0))) })
  else if req.method = "findListByNameOrId" then
    match argStr? req.args 0 with
    | some key => (st, { id := req.id, result := some (.rListOpt (findListByNameOrId st.store key)) })
    | none => badArgsResp st req.id
  else if req.method = "createList" then
    match argStr? req.args 0 with
    | some name =>
        let i := genId st.idCounter
        ({ st with idCounter := st.idCounter + 1,
                   store := createList st.store i name (argOpts req.args 1) },
         { id := req.id, result := some (.rStr i) })
    | none => badArgsResp st req.id
  else if req.method = "updateList" then
    match argStr? req.args 0, argListFields? req.args 1 with
    | some lid, some f =>
        match updateList st.store lid f with
        | (.ok r, store') =>
            ({ st with store := store' }, { id := req.id, result := some (.rListUpd r) })
        | (.error e, store') =>
            ({ st with store := store' }, { id := req.id, error := some e })
    | _, _ => badArgsResp st req.id
  else if req.method = "deleteList" then
    match argStr? req.args 0 with
    | some lid =>
        match deleteList st.store lid with
        | (.ok l, store') =>
            ({ st with store := store' }, { id := req.id, result := some (.rList l) })
        | (.error e, store') =>
            ({ st with store := store' }, { id := req.id, error := some e })
    | none => badArgsResp st req.id
  else if req.method = "restoreList" then
    match argList? req.args 0 with
    | some l => ({ st with store := restoreList st.store l }, { id := req.id })
    | none => badArgsResp st req.id
  else if req.method = "addTodo" then
    match argStr? req.args 0, argStr? req.args 1 with
    | some lid, some text =>
        let i := genId st.idCounter
        ({ st with idCounter := st.idCounter + 1,
                   store := addTodo st.store i lid text (argTodoFields req.args 2) },
         { id := req.id, result := some (.rStr i) })
    | _, _ => badArgsResp st req.id
  else if req.method = "markTodoDone" then
    match argStr? req.args 0 with
    | some tid =>
        match markTodoDone st.store tid with
        | (.ok t, store') =>
            ({ st with store := store' }, { id := req.id, result := some (.rTodo t) })
        | (.error e, store') =>
            ({ st with store := store' }, { id := req.id, error := some e })
    | none => badArgsResp st req.id
  else if req.method = "deleteTodo" then
    match argStr? req.args 0 with
    | some tid =>
        match deleteTodo st.store tid with
        | (.ok t, store') =>
            ({ st with store := store' }, { id := req.id, result := some (.rTodo t) })
        | (.error e, store') =>
            ({ st with store := store' }, { id := req.id, error := some e })
    | none => badArgsResp st req.id
  else if req.method = "updateTodo" then
    match argStr? req.args 0, argUpdFields? req.args 1 with
    | some tid, some f =>
        match updateTodo st.store tid f with
        | (.ok r, store') =>
            ({ st with store := store' }, { id := req.id, result := some (.rUpd r) })
        | (.error e, store') =>
            ({ st with store := store' }, { id := req.id, error := some e })
    | _, _ => badArgsResp st req.id
  else if req.method = "markTodoUndone" then
    match argStr? req.args 0 with
    | some tid =>
        match markTodoUndone st.store tid with
        | (.ok t, store') =>
            ({ st with store := store' }, { id := req.id, result := some (.rTodo t) })
        | (.error e, store') =>
            ({ st with store := store' }, { id := req.id, error := some e })
    | none => badArgsResp st req.id
  else if req.method = "batchAddTodos" then
    match argStr? req.args 0, argItems? req.args 1 with
    | some lid, some items =>
        let ids := (List.range items.length).map (fun k => genId (st.idCounter + k))
        ({ st with idCounter := st.idCounter + items.length,
                   store := batchAddTodos st.store lid (ids.zip items) },
         { id := req.id, result := some (.rStrs ids) })
    | _, _ => badArgsResp st req.id
  else if req.method = "batchUpdateTodos" then
    match argUpdates? req.args 0 with
    | some us =>
        let (rs, store') := batchUpdateTodos st.store us
        ({ st with store := store' }, { id := req.id, result := some (.rUpds rs) })
    | none => badArgsResp st req.id
  else if req.method = "batchDeleteTodos" then
    match argStrs? req.args 0 with
    | some ids =>
        match batchDeleteTodos st.store ids with
        | (.ok _, store') => ({ st with store := store' }, { id := req.id })
        | (.error e, store') => ({ st with store := store' }, { id := req.id, error := some e })
    | none => badArgsResp st req.id
  else if req.method = "restoreTodo" then
    match argTodo? req.args 0 with
    | some t => ({ st with store := restoreTodo st.store t }, { id := req.id })
    | none => badArgsResp st req.id
  else
    (st, { id := req.id, error := some ("Unknown method: " ++ req.method) })

/-- One complete line received on a daemon connection, after
buffering: blank (skipped), unparsable (`Invalid JSON` response), or a
parsed request tagged with its arrival time. -/
inductive Frame where
  | blank : Frame
  | malformed : Frame
  | request (now : Nat) (req : IpcRequest) : Frame
deriving DecidableEq

/-- `handleConnection`'s line loop: each non-blank line yields exactly
one response and processing always continues with the next line — the
socket is never closed by the daemon. -/
def serveConn (st : DaemonState) : List Frame → DaemonState × List IpcResponse
  | [] => (st, [])
  | .blank :: rest => serveConn st rest
  | .malformed :: rest =>
      let (st', rs) := serveConn st rest
      (st', { id := "unknown", error := some "Invalid JSON" } :: rs)
  | .request now req :: rest =>
      let (st1, resp) := handleRequest now st req
      let (st', rs) := serveConn st1 rest
      (st', resp :: rs)

/-- Number of responses a frame list produces (one per non-blank line). -/
def respCount : List Frame → Nat
  | [] => 0
  | .blank :: rest => respCount rest
  | .malformed :: rest => respCount rest + 1
  | .request _ _ :: rest => respCount rest + 1

/-! ## Supervisor response correlation (`src/daemon-client.ts`)

The supervisor keeps `pending : Map<id, {resolve, reject}>`.  A
waiting caller's promise is abstracted as a numeric token.  The data
handler settles callers as parsed response lines arrive; the close
handler rejects every outstanding caller and clears the map. -/

/-- How a response settles its caller: `if (res.error)` (truthy)
rejects with the error, otherwise resolves with the result. -/
inductive Outcome where
  | resolved (r : Option ResultVal)
  | rejected (msg : String)
deriving DecidableEq

/-- One settlement: caller `waiter`, registered under correlation id
`rid`, settled with `outcome`. -/
structure SettleEvent where
  rid : String
  waiter : Nat
  outcome : Outcome
deriving DecidableEq

/-- Settlement a response produces for its matched caller. -/
def settleOutcome (res : IpcResponse) : Outcome :=
  if strTruthy res.error then .rejected (res.error.getD "") else .resolved res.result

/-- The parsed-response branch of the supervisor's data handler: look
the id up in `pending`; no match drops the response; a match removes
the entry and settles that caller. -/
def handleResponse (pending : List (String × Nat)) (res : IpcResponse) :
    List (String × Nat) × List SettleEvent :=
  match tblGet pending res.id with
  | none => (pending, [])
  | some w => (tblDel pending res.id, [⟨res.id, w, settleOutcome res⟩])

/-- Processing of a sequence of arriving responses, in arrival order. -/
def runResponses : List (String × Nat) → List IpcResponse →
    List (String × Nat) × List SettleEvent
  | p, [] => (p, [])
  | p, r :: rs =>
      let (p1, es) := handleResponse p r
      let (p2, es') := runResponses p1 rs
      (p2, es ++ es')

/-- The socket close handler: reject every pending caller with the
connection-closed error, then clear the map. -/
def handleClose (pending : List (String × Nat)) :
    List (String × Nat) × List SettleEvent :=
  ([], pending.map (fun pr => ⟨pr.1, pr.2, .rejected "Daemon connection closed"⟩))

/-! ## Table and defaulting lemmas -/

theorem tblGet_tblSet_self {α : Type} (t : List (String × α)) (i : String) (v : α) :
    tblGet (tblSet t i v) i = some v := by
  induction t with
  | nil => simp [tblSet, tblGet]
  | cons p rest ih =>
      obtain ⟨k, w⟩ := p
      by_cases h : k = i
      · simp [tblSet, h, tblGet]
      · simp [tblSet, h, tblGet, ih]

theorem tblGet_tblSet_ne {α : Type} (t : List (String × α)) (i j : String) (v : α)
    (h : j ≠ i) : tblGet (tblSet t i v) j = tblGet t j := by
  induction t with
  | nil => simp [tblSet, tblGet, Ne.symm h]
  | cons p rest ih =>
      obtain ⟨k, w⟩ := p
      by_cases hk : k = i
      · subst hk
        simp [tblSet, tblGet, Ne.symm h]
      · by_cases hkj : k = j <;> simp [tblSet, tblGet, hk, hkj, h, ih]

theorem tblGet_tblDel_self {α : Type} (t : List (String × α)) (i : String) :
    tblGet (tblDel t i) i = none := by
  induction t with
  | nil => simp [tblDel, tblGet]
  | cons p rest ih =>
      obtain ⟨k, w⟩ := p
      by_cases h : k = i
      · simpa [tblDel, h] using ih
      · simpa [tblDel, tblGet, h] using ih

theorem tblGet_tblDel_ne {α : Type} (t : List (String × α)) (i j : String)
    (h : j ≠ i) : tblGet (tblDel t i) j = tblGet t j := by
  induction t with
  | nil => simp [tblDel, tblGet]
  | cons p rest ih =>
      obtain ⟨k, w⟩ := p
      by_cases hk : k = i
      · subst hk
        simpa [tblDel, tblGet, Ne.symm h] using ih
      · by_cases hkj : k = j <;> simp_all [tblDel, tblGet]

theorem jsOrS_some_empty (s : String) : jsOrS (some s) "" = s := by
  by_cases h : s = "" <;> simp [jsOrS, h]

theorem jsOrI_some_zero (n : Int) : jsOrI (some n) 0 = n := by
  by_cases h : n = 0 <;> simp [jsOrI, h]

theorem jsOrS_ne_empty (o : Option String) (d : String) (hd : d ≠ "") :
    jsOrS o d ≠ "" := by
  cases o with
  | none => simpa [jsOrS] using hd
  | some s =>
      by_cases h : s = "" <;> simp [jsOrS, h, hd]

theorem jsOrI_ne_zero (o : Option Int) (d : Int) (hd : d ≠ 0) :
    jsOrI o d ≠ 0 := by
  cases o with
  | none => simpa [jsOrI] using hd
  | some n =>
      by_cases h : n = 0 <;> simp [jsOrI, h, hd]

theorem jsOrS_some_of_ne (s d : String) (h : s ≠ "") : jsOrS (some s) d = s := by
  simp [jsOrS, h]

theorem jsOrI_some_of_ne (n d : Int) (h : n ≠ 0) : jsOrI (some n) d = n := by
  simp [jsOrI, h]

/-- Restoring the record captured from a row written by `addTodo`
rebuilds that row exactly: every `|| default` in `restoreTodo` fires
only on values `addTodo` could not have written. -/
theorem restoreTodoRow_todoOfRow_mkTodoRow (i listId text : String) (f : TodoFields) :
    restoreTodoRow (todoOfRow i (mkTodoRow listId text f)) = mkTodoRow listId text f := by
  simp only [restoreTodoRow, todoOfRow, mkTodoRow, jsOrS_some_empty, jsOrI_some_zero]
  rw [jsOrI_some_of_ne _ _ (jsOrI_ne_zero f.fiveStarRating 1 (by decide))]
  rw [jsOrS_some_of_ne _ _ (jsOrS_ne_empty f.type "A" (by decide))]
  simp [jsOrB]

/-- Claim C1: for a todo created by `addTodo`, deleting it and
restoring the record `deleteTodo` returned puts back a row equal
field-for-field to the pre-deletion row. -/
theorem addTodo_deleteTodo_restoreTodo_roundtrip
    (st : ClientState) (i listId text : String) (f : TodoFields) :
    ∃ (t : Todo) (st2 : ClientState),
      deleteTodo (addTodo st i listId text f) i = (.ok t, st2) ∧
      tblGet (restoreTodo st2 t).todos i = some (mkTodoRow listId text f) := by
  refine ⟨todoOfRow i (mkTodoRow listId text f),
    { addTodo st i listId text f with
        todos := tblDel (addTodo st i listId text f).todos i }, ?_, ?_⟩
  · simp [deleteTodo, addTodo, tblGet_tblSet_self]
  · show tblGet (tblSet _ (todoOfRow i (mkTodoRow listId text f)).id _) i = _
    have hid : (todoOfRow i (mkTodoRow listId text f)).id = i := rfl
    rw [hid, tblGet_tblSet_self, restoreTodoRow_todoOfRow_mkTodoRow]

/-! ## Ledger lemmas -/

/-- The shift loop of `recordUndo` drops exactly the excess from the
front (oldest entries). -/
theorem pruneEntries_eq (es : List UndoEntry) (m : Nat) :
    pruneEntries es m = es.drop (es.length - m) := by
  rw [pruneEntries]
  split
  · rename_i h
    rw [pruneEntries_eq es.tail m]
    cases es with
    | nil => simp at h
    | cons a t =>
        simp only [List.tail_cons, List.length_cons]
        have hm : t.length + 1 - m = (t.length - m) + 1 := by
          simp only [List.length_cons] at h
          omega
        rw [hm, List.drop_succ_cons]
  · rename_i h
    have hz : es.length - m = 0 := by omega
    rw [hz, List.drop_zero]
termination_by es.length
decreasing_by simp only [List.length_tail]; omega

theorem recordUndo_entries (st : UndoHistoryData) (e : UndoEntry)
    (h : st.maxEntries = 50) :
    (recordUndo st e).entries = (st.entries ++ [e]).drop (st.entries.length + 1 - 50) := by
  simp [recordUndo, pruneEntries_eq, h]

theorem recordUndo_length_le (st : UndoHistoryData) (e : UndoEntry)
    (h : st.maxEntries = 50) : (recordUndo st e).entries.length ≤ 50 := by
  rw [recordUndo_entries st e h]
  simp only [List.length_drop, List.length_append, List.length_singleton]
  omega

theorem recordUndo_maxEntries (st : UndoHistoryData) (e : UndoEntry) :
    (recordUndo st e).maxEntries = st.maxEntries := rfl

theorem recordUndoSeq_length_le (es : List UndoEntry) (st : UndoHistoryData)
    (e : UndoEntry) (h : st.maxEntries = 50) :
    (recordUndoSeq st (e :: es)).entries.length ≤ 50 := by
  induction es generalizing st e with
  | nil => exact recordUndo_length_le st e h
  | cons e' es' ih =>
      show (recordUndoSeq (recordUndo st e) (e' :: es')).entries.length ≤ 50
      exact ih (recordUndo st e) e' (by rw [recordUndo_maxEntries]; exact h)

/-- Claim C2: with the capacity at its fixed value 50, an append keeps
the chronological order, drops only from the front, never leaves more
than 50 entries (also across any further appends), and an append onto
a full ledger evicts exactly entry #1. -/
theorem recordUndo_bounded_fifo (st : UndoHistoryData) (e : UndoEntry)
    (es : List UndoEntry) (h : st.maxEntries = 50) :
    (recordUndo st e).entries = (st.entries ++ [e]).drop (st.entries.length + 1 - 50) ∧
    (recordUndo st e).entries.length ≤ 50 ∧
    (st.entries.length = 50 → (recordUndo st e).entries = st.entries.tail ++ [e]) ∧
    (50 ≤ st.entries.length →
      ∃ k, 1 ≤ k ∧ (recordUndo st e).entries = st.entries.drop k ++ [e]) ∧
    (recordUndoSeq st (e :: es)).entries.length ≤ 50 := by
  refine ⟨recordUndo_entries st e h, recordUndo_length_le st e h, ?_, ?_,
    recordUndoSeq_length_le es st e h⟩
  · intro hfull
    rw [recordUndo_entries st e h, hfull]
    rw [List.drop_append_of_le_length (by omega)]
    cases hes : st.entries with
    | nil => rw [hes] at hfull; simp at hfull
    | cons a t => simp
  · intro hge
    refine ⟨st.entries.length + 1 - 50, by omega, ?_⟩
    rw [recordUndo_entries st e h]
    rw [List.drop_append_of_le_length (by omega)]

/-! ## Pop lemmas -/

/-- The pop loop removes entries from the newest end: it returns the
last `min n length` entries reversed (most-recent-first) and keeps the
prefix. -/
theorem popN_eq (n : Nat) (es : List UndoEntry) :
    popN n es = ((es.drop (es.length - n)).reverse, es.take (es.length - n)) := by
  induction n generalizing es with
  | zero => simp [popN]
  | succ n ih =>
      induction es using List.reverseRecOn with
      | nil => simp [popN]
      | append_singleton init last _ =>
          rw [popN]
          simp only [List.getLast?_concat, List.dropLast_concat, ih]
          have hk : (init ++ [last]).length - (n + 1) = init.length - n := by
            simp only [List.length_append, List.length_singleton]
            omega
          rw [hk]
          rw [List.drop_append_of_le_length (Nat.sub_le _ _)]
          rw [List.take_append_of_le_length (Nat.sub_le _ _)]
          simp

/-- Claim C4: `pop(n)` removes exactly the `n` most-recent entries
(all of them when `n` exceeds the length), persists the shortened
ledger, and returns the popped entries most-recent-first. -/
theorem popUndoEntries_lifo (st : UndoHistoryData) (n : Nat) :
    (popUndoEntries st n).2.entries = st.entries.take (st.entries.length - n) ∧
    (popUndoEntries st n).1 = (st.entries.drop (st.entries.length - n)).reverse ∧
    (popUndoEntries st n).2.maxEntries = st.maxEntries ∧
    (n ≤ st.entries.length →
      (popUndoEntries st n).2.entries.length = st.entries.length - n ∧
      (popUndoEntries st n).1.length = n) ∧
    (st.entries.length < n →
      (popUndoEntries st n).1 = st.entries.reverse ∧
      (popUndoEntries st n).2.entries = []) := by
  have hpop := popN_eq n st.entries
  refine ⟨?_, ?_, rfl, ?_, ?_⟩
  · simp [popUndoEntries, hpop]
  · simp [popUndoEntries, hpop]
  · intro hle
    constructor
    · simp only [popUndoEntries, hpop]
      simp only [List.length_take]
      omega
    · simp only [popUndoEntries, hpop]
      simp only [List.length_reverse, List.length_drop]
      omega
  · intro hlt
    constructor
    · simp only [popUndoEntries, hpop]
      have hz : st.entries.length - n = 0 := by omega
      rw [hz, List.drop_zero]
    · simp only [popUndoEntries, hpop]
      have hz : st.entries.length - n = 0 := by omega
      rw [hz, List.take_zero]

/-! ## Correlation lemmas -/

theorem tblGet_mem {α : Type} {p : List (String × α)} {i : String} {w : α}
    (h : tblGet p i = some w) : (i, w) ∈ p := by
  induction p with
  | nil => simp [tblGet] at h
  | cons q rest ih =>
      obtain ⟨k, v⟩ := q
      by_cases hk : k = i
      · subst hk
        have hvw : some v = some w := by simpa [tblGet] using h
        obtain rfl : v = w := Option.some.inj hvw
        exact List.mem_cons_self _ _
      · simp only [tblGet, if_neg hk] at h
        exact List.mem_cons_of_mem _ (ih h)

theorem mem_tblDel {α : Type} {p : List (String × α)} {i : String} {q : String × α}
    (h : q ∈ tblDel p i) : q ∈ p :=
  List.mem_of_mem_filter h

theorem nodup_map_fst_tblDel {α : Type} (p : List (String × α)) (i : String)
    (h : (p.map Prod.fst).Nodup) : ((tblDel p i).map Prod.fst).Nodup :=
  List.Nodup.sublist ((List.filter_sublist _).map Prod.fst) h

theorem not_mem_map_fst_tblDel {α : Type} (p : List (String × α)) (i : String) :
    i ∉ (tblDel p i).map Prod.fst := by
  intro hmem
  rw [List.mem_map] at hmem
  obtain ⟨q, hq, hfst⟩ := hmem
  rw [tblDel, List.mem_filter] at hq
  have hne := hq.2
  simp only [decide_eq_true_eq] at hne
  exact hne hfst

/-- Invariant of response processing: the pending map shrinks, every
settlement matches an entry of the original pending map, no id is
settled twice, and a settled id is no longer pending. -/
theorem runResponses_inv (rs : List IpcResponse) (p : List (String × Nat))
    (hnd : (p.map Prod.fst).Nodup) :
    ((runResponses p rs).1.map Prod.fst).Nodup ∧
    (∀ q ∈ (runResponses p rs).1, q ∈ p) ∧
    (∀ ev ∈ (runResponses p rs).2, (ev.rid, ev.waiter) ∈ p) ∧
    ((runResponses p rs).2.map SettleEvent.rid).Nodup ∧
    (∀ ev ∈ (runResponses p rs).2, ev.rid ∉ (runResponses p rs).1.map Prod.fst) := by
  induction rs generalizing p with
  | nil => simpa [runResponses] using hnd
  | cons r rs ih =>
      cases hmatch : tblGet p r.id with
      | none =>
          have hred : runResponses p (r :: rs) = runResponses p rs := by
            simp [runResponses, handleResponse, hmatch]
          rw [hred]
          exact ih p hnd
      | some w =>
          have hnd1 : ((tblDel p r.id).map Prod.fst).Nodup :=
            nodup_map_fst_tblDel p r.id hnd
          have hred : runResponses p (r :: rs) =
              ((runResponses (tblDel p r.id) rs).1,
               ⟨r.id, w, settleOutcome r⟩ :: (runResponses (tblDel p r.id) rs).2) := by
            simp [runResponses, handleResponse, hmatch]
          obtain ⟨hA, hB, hC, hD, hE⟩ := ih (tblDel p r.id) hnd1
          rw [hred]
          refine ⟨hA, ?_, ?_, ?_, ?_⟩
          · exact fun q hq => mem_tblDel (hB q hq)
          · intro ev hev
            rcases List.mem_cons.mp hev with hh | ht
            · subst hh
              exact tblGet_mem hmatch
            · exact mem_tblDel (hC ev ht)
          · simp only [List.map_cons, List.nodup_cons]
            refine ⟨?_, hD⟩
            intro hbad
            rw [List.mem_map] at hbad
            obtain ⟨ev, hev, hevid⟩ := hbad
            have hid : ev.rid ∈ (tblDel p r.id).map Prod.fst :=
              List.mem_map.mpr ⟨(ev.rid, ev.waiter), hC ev hev, rfl⟩
            rw [hevid] at hid
            exact not_mem_map_fst_tblDel p r.id hid
          · intro ev hev
            rcases List.mem_cons.mp hev with hh | ht
            · subst hh
              intro hbad
              rw [List.mem_map] at hbad
              obtain ⟨q, hq, hfst⟩ := hbad
              have : q ∈ tblDel p r.id := hB q hq
              have : q.1 ∈ (tblDel p r.id).map Prod.fst :=
                List.mem_map.mpr ⟨q, this, rfl⟩
              rw [hfst] at this
              exact not_mem_map_fst_tblDel p r.id this
            · exact hE ev ht

/-- Claim C3: with distinct in-flight correlation ids, any arrival
order of responses settles each response's waiter — the caller
registered under that exact id — exactly once, and a response whose id
matches no pending request is dropped. -/
theorem response_routing_correct (p : List (String × Nat)) (rs : List IpcResponse)
    (hnd : (p.map Prod.fst).Nodup) :
    (∀ ev ∈ (runResponses p rs).2, (ev.rid, ev.waiter) ∈ p) ∧
    ((runResponses p rs).2.map SettleEvent.rid).Nodup ∧
    (∀ r : IpcResponse, tblGet p r.id = none → handleResponse p r = (p, [])) ∧
    (∀ (r : IpcResponse) (w : Nat), tblGet p r.id = some w →
      handleResponse p r = (tblDel p r.id, [⟨r.id, w, settleOutcome r⟩])) := by
  obtain ⟨_, _, hC, hD, _⟩ := runResponses_inv rs p hnd
  refine ⟨hC, hD, ?_, ?_⟩
  · intro r h
    simp [handleResponse, h]
  · intro r w h
    simp [handleResponse, h]

/-- Claim C7: when the socket closes, every still-outstanding request
is rejected with the connection-closed error and the pending map is
cleared. -/
theorem close_rejects_all_pending (p0 : List (String × Nat)) (rs : List IpcResponse) :
    (handleClose (runResponses p0 rs).1).1 = [] ∧
    (handleClose (runResponses p0 rs).1).2 =
      (runResponses p0 rs).1.map
        (fun pr => ⟨pr.1, pr.2, .rejected "Daemon connection closed"⟩) ∧
    (∀ q ∈ (runResponses p0 rs).1,
      (⟨q.1, q.2, .rejected "Daemon connection closed"⟩ : SettleEvent) ∈
        (handleClose (runResponses p0 rs).1).2) ∧
    (∀ ev ∈ (handleClose (runResponses p0 rs).1).2,
      ev.outcome = .rejected "Daemon connection closed") := by
  refine ⟨rfl, rfl, ?_, ?_⟩
  · intro q hq
    exact List.mem_map.mpr ⟨q, hq, rfl⟩
  · intro ev hev
    simp only [handleClose, List.mem_map] at hev
    obtain ⟨q, _, rfl⟩ := hev
    rfl

/-! ## Daemon connection lemmas -/

theorem serveConn_length (frames : List Frame) (st : DaemonState) :
    (serveConn st frames).2.length = respCount frames := by
  induction frames generalizing st with
  | nil => simp [serveConn, respCount]
  | cons f rest ih =>
      cases f with
      | blank => simpa [serveConn, respCount] using ih st
      | malformed => simp [serveConn, respCount, ih]
      | request now req => simp [serveConn, respCount, ih]

/-- Claim C5: a request whose method is not in the dispatch table gets
exactly `{id, error: "Unknown method: <name>"}` with the request's own
correlation id, the daemon state is untouched apart from the idle
clock (no shutdown scheduled, store unchanged), and the connection
keeps serving: every subsequent non-blank line still gets exactly one
response. -/
theorem unknown_method_response (now : Nat) (st : DaemonState) (req : IpcRequest)
    (rest : List Frame) (h : req.method ∉ knownMethods) :
    (handleRequest now st req).2 =
      { id := req.id, error := some ("Unknown method: " ++ req.method) } ∧
    (handleRequest now st req).1 = { st with lastActivity := now } ∧
    serveConn st (.request now req :: rest) =
      ((serveConn { st with lastActivity := now } rest).1,
       { id := req.id, error := some ("Unknown method: " ++ req.method) } ::
         (serveConn { st with lastActivity := now } rest).2) ∧
    (serveConn { st with lastActivity := now } rest).2.length = respCount rest := by
  simp only [knownMethods, List.mem_cons, List.not_mem_nil, or_false, not_or] at h
  obtain ⟨h1, h2, h3, h4, h5, h6, h7, h8, h9, h10, h11, h12, h13, h14, h15, h16, h17, h18⟩ := h
  have hreq : handleRequest now st req =
      ({ st with lastActivity := now },
       { id := req.id, error := some ("Unknown method: " ++ req.method) }) := by
    simp [handleRequest, h1, h2, h3, h4, h5, h6, h7, h8, h9, h10, h11, h12,
      h13, h14, h15, h16, h17, h18]
  refine ⟨by rw [hreq], by rw [hreq], ?_, serveConn_length rest _⟩
  simp [serveConn, hreq]

/-- Claim C6: `updateTodo` and `updateList` fail NotFound on an absent
id leaving the store unchanged; on a present id the result's
`previousFields` snapshots exactly the keys passed in `fields`, with
their pre-overwrite cell values, and a key passed as `undefined` is a
no-op on the stored row. -/
theorem update_snapshot_semantics (st : ClientState) (i : String)
    (f : TodoUpdateFields) (g : ListFields) :
    (tblGet st.todos i = none →
      updateTodo st i f = (.error ("Todo not found: " ++ i), st)) ∧
    (tblGet st.lists i = none →
      updateList st i g = (.error ("List not found: " ++ i), st)) ∧
    (∀ r, tblGet st.todos i = some r →
      updateTodo st i f =
        (.ok { id := i, previousFields := snapTodoPrev f r },
         { st with todos := tblSet st.todos i (applyTodoFields f r) })) ∧
    (∀ r, tblGet st.lists i = some r →
      updateList st i g =
        (.ok { id := i, previousFields := snapListPrev g r },
         { st with lists := tblSet st.lists i (applyListFields g r) })) ∧
    (∀ (α : Type) (fv : FieldVal α) (old : α),
      fv = FieldVal.undef → applyField fv old = old) ∧
    (∀ (α β : Type) (fv : FieldVal α) (old : β),
      (fv = FieldVal.absent → snapField fv old = none) ∧
      (fv ≠ FieldVal.absent → snapField fv old = some old)) := by
  refine ⟨?_, ?_, ?_, ?_, ?_, ?_⟩
  · intro h; simp [updateTodo, h]
  · intro h; simp [updateList, h]
  · intro r h; simp [updateTodo, h]
  · intro r h; simp [updateList, h]
  · rintro α fv old rfl; rfl
  · intro α β fv old
    constructor
    · rintro rfl; rfl
    · intro hne
      cases fv with
      | absent => exact absurd rfl hne
      | undef => rfl
      | val v => rfl

/-- Claim C8: `markTodoDone` and `markTodoUndone` fail with the
"Todo not found" error on an absent id and leave the store unchanged;
on a present id they return the entire prior record, captured before
the `done` cell is flipped. -/
theorem mark_done_undone_semantics (st : ClientState) (i : String) :
    (tblGet st.todos i = none →
      markTodoDone st i = (.error ("Todo not found: " ++ i), st) ∧
      markTodoUndone st i = (.error ("Todo not found: " ++ i), st)) ∧
    (∀ r, tblGet st.todos i = some r →
      markTodoDone st i =
        (.ok (todoOfRow i r),
         { st with todos := tblSet st.todos i { r with done := true } }) ∧
      markTodoUndone st i =
        (.ok (todoOfRow i r),
         { st with todos := tblSet st.todos i { r with done := false } }) ∧
      (todoOfRow i r).done = some r.done) := by
  constructor
  · intro h
    exact ⟨by simp [markTodoDone, h], by simp [markTodoUndone, h]⟩
  · intro r h
    exact ⟨by simp [markTodoDone, h], by simp [markTodoUndone, h], rfl⟩

/-! ## Undo command lemmas -/

theorem undoCommand_fst (ledger : UndoHistoryData) (count : Nat)
    (connectOk : Bool) (st : ClientState) :
    (undoCommand ledger count connectOk st).1 = (popUndoEntries ledger count).2 := by
  unfold undoCommand
  cases hp : popUndoEntries ledger count with
  | mk entries ledger' =>
      dsimp only
      split_ifs <;> rfl

/-- Claim C9: the `undo` command persists the popped ledger before any
client connection or replay; on every outcome — including a failed
connection — the persisted ledger is the shortened one and the popped
entries are not restored. -/
theorem undo_pops_before_replay (ledger : UndoHistoryData) (count : Nat)
    (connectOk : Bool) (st : ClientState) :
    (undoCommand ledger count connectOk st).1 = (popUndoEntries ledger count).2 ∧
    (undoCommand ledger count connectOk st).1.entries =
      ledger.entries.take (ledger.entries.length - count) ∧
    (connectOk = false → (popUndoEntries ledger count).1 ≠ [] →
      (undoCommand ledger count connectOk st).2 = .error "connect failed") := by
  refine ⟨undoCommand_fst ledger count connectOk st, ?_, ?_⟩
  · rw [undoCommand_fst ledger count connectOk st]
    simp [popUndoEntries, popN_eq]
  · intro hc hne
    subst hc
    unfold undoCommand
    cases hp : popUndoEntries ledger count with
    | mk entries ledger' =>
        cases entries with
        | nil => exact absurd (by rw [hp]) hne
        | cons e es => simp

/-! ## Batch delete lemmas -/

theorem foldl_tblDel_get (ids : List String) (t : List (String × TodoRow)) (x : String) :
    tblGet (ids.foldl (fun a i => tblDel a i) t) x =
      if x ∈ ids then none else tblGet t x := by
  induction ids generalizing t with
  | nil => simp
  | cons i rest ih =>
      simp only [List.foldl_cons]
      rw [ih]
      by_cases hx : x ∈ rest
      · simp [hx]
      · by_cases hxi : x = i
        · subst hxi
          simp [hx, tblGet_tblDel_self]
        · simp [hx, hxi, tblGet_tblDel_ne t i x hxi]

/-- Claim C10: `batchDeleteTodos` succeeds for every id list — an
absent id is a no-op, unlike single `deleteTodo`, which fails NotFound
— removes exactly the listed ids that are present, and leaves every
other todo and the whole lists table unchanged. -/
theorem batch_delete_skips_absent (st : ClientState) (ids : List String) :
    (batchDeleteTodos st ids).1 = .ok () ∧
    (∀ x, tblGet (batchDeleteTodos st ids).2.todos x =
      if x ∈ ids then none else tblGet st.todos x) ∧
    (batchDeleteTodos st ids).2.lists = st.lists ∧
    (∀ x, tblGet st.todos x = none →
      deleteTodo st x = (.error ("Todo not found: " ++ x), st)) := by
  refine ⟨rfl, ?_, rfl, ?_⟩
  · intro x
    exact foldl_tblDel_get ids st.todos x
  · intro x h
    simp [deleteTodo, h]

/-! ## Concrete fixtures for witness evaluation -/

/-- A todo row as written by `addTodo "l1" "hello"` with no extra fields. -/
def sampleTodoRow : TodoRow := mkTodoRow "l1" "hello" {}

/-- A list row as written by `createList "Groceries"` with no options. -/
def sampleListRow : ListRow := mkListRow "Groceries" {}

/-- A store with one list and one todo. -/
def sampleState : ClientState :=
  { lists := [("l1", sampleListRow)], todos := [("t1", sampleTodoRow)] }

/-- One concrete ledger entry. -/
def sampleEntry : UndoEntry :=
  { id := "op1", timestamp := 1, operation := "addTodo",
    description := "Added hello", undo := .deleteTodo "t1" }

/-- Ledger entry keyed by a string, for small distinct fixtures. -/
def mkSampleEntry (s : String) : UndoEntry :=
  { id := s, timestamp := 0, operation := "op", description := s,
    undo := .deleteTodo s }

/-- A three-entry ledger (entry "1" oldest, "3" newest). -/
def ledger3 : UndoHistoryData :=
  { entries := [mkSampleEntry "1", mkSampleEntry "2", mkSampleEntry "3"],
    maxEntries := 50 }

/-- A ledger at full capacity. -/
def fullLedger : UndoHistoryData :=
  { entries := List.replicate 50 sampleEntry, maxEntries := 50 }

/-- A fresh daemon state over an empty store. -/
def st0 : DaemonState :=
  { pid := 1, startedAt := 0, lastActivity := 0, version := "1.0.0",
    idCounter := 0, store := { lists := [], todos := [] } }

/-- A request for an unknown method. -/
def bogusReq : IpcRequest := { id := "r1", method := "bogus", args := [] }

/-- Two pending requests, ids "a" then "b". -/
def pending0 : List (String × Nat) := [("a", 1), ("b", 2)]

/-- Responses arriving out of send-order: "b" answered first. -/
def rs0 : List IpcResponse :=
  [{ id := "b", result := some .rOk }, { id := "a", result := some .rOk }]

/-- Update fields touching `text` with a value and `notes` with `undefined`. -/
def fields6 : TodoUpdateFields := { text := .val "new text", notes := .undef }

/-- List update fields renaming the list. -/
def listFields6 : ListFields := { name := .val "Renamed" }

/-! ## Witnesses -/

/-- Witness for C2 at a full 50-entry ledger: the append evicts
exactly entry #1 and stays within capacity. -/
theorem recordUndo_bounded_fifo_witness :
    fullLedger.maxEntries = 50 ∧
    fullLedger.entries.length = 50 ∧
    (recordUndo fullLedger sampleEntry).entries =
      fullLedger.entries.tail ++ [sampleEntry] ∧
    (recordUndo fullLedger sampleEntry).entries.length ≤ 50 :=
  ⟨rfl, by simp [fullLedger],
   (recordUndo_bounded_fifo fullLedger sampleEntry [] rfl).2.2.1 (by simp [fullLedger]),
   (recordUndo_bounded_fifo fullLedger sampleEntry [] rfl).2.1⟩

/-- Witness for C3: ids "a" then "b" answered in reverse order; the
"b" response settles caller 2, each id settled at most once. -/
theorem response_routing_correct_witness :
    (pending0.map Prod.fst).Nodup ∧
    ((runResponses pending0 rs0).2.map SettleEvent.rid).Nodup ∧
    (("b", 2) ∈ pending0) :=
  ⟨by decide,
   (response_routing_correct pending0 rs0 (by decide)).2.1,
   (response_routing_correct pending0 rs0 (by decide)).1
     ⟨"b", 2, .resolved (some .rOk)⟩ (by decide)⟩

/-- Witness for C4: popping 2 of 3 entries removes exactly the two
newest and returns them most-recent-first. -/
theorem popUndoEntries_lifo_witness :
    2 ≤ ledger3.entries.length ∧
    (popUndoEntries ledger3 2).2.entries.length = ledger3.entries.length - 2 ∧
    (popUndoEntries ledger3 2).1.length = 2 ∧
    (popUndoEntries ledger3 2).1 =
      (ledger3.entries.drop (ledger3.entries.length - 2)).reverse :=
  ⟨by decide,
   ((popUndoEntries_lifo ledger3 2).2.2.2.1 (by decide)).1,
   ((popUndoEntries_lifo ledger3 2).2.2.2.1 (by decide)).2,
   (popUndoEntries_lifo ledger3 2).2.1⟩

/-- Witness for C5: method "bogus" gets the exact unknown-method error
and a following ping frame still gets its one response. -/
theorem unknown_method_response_witness :
    bogusReq.method ∉ knownMethods ∧
    (handleRequest 5 st0 bogusReq).2 =
      { id := bogusReq.id, error := some ("Unknown method: " ++ bogusReq.method) } ∧
    (serveConn { st0 with lastActivity := 5 }
        [Frame.request 6 { id := "r2", method := "ping", args := [] }]).2.length =
      respCount [Frame.request 6 { id := "r2", method := "ping", args := [] }] :=
  ⟨by decide,
   (unknown_method_response 5 st0 bogusReq
     [Frame.request 6 { id := "r2", method := "ping", args := [] }] (by decide)).1,
   (unknown_method_response 5 st0 bogusReq
     [Frame.request 6 { id := "r2", method := "ping", args := [] }] (by decide)).2.2.2⟩

/-- Witness for C6: an absent id fails NotFound leaving the store
unchanged; a present id snapshots the passed keys pre-overwrite, and
the `undefined`-valued `notes` key is a no-op. -/
theorem update_snapshot_semantics_witness :
    tblGet sampleState.todos "nope" = none ∧
    updateTodo sampleState "nope" fields6 =
      (.error ("Todo not found: " ++ "nope"), sampleState) ∧
    tblGet sampleState.todos "t1" = some sampleTodoRow ∧
    updateTodo sampleState "t1" fields6 =
      (.ok { id := "t1", previousFields := snapTodoPrev fields6 sampleTodoRow },
       { sampleState with
          todos := tblSet sampleState.todos "t1" (applyTodoFields fields6 sampleTodoRow) }) ∧
    applyField fields6.notes sampleTodoRow.notes = sampleTodoRow.notes ∧
    snapField fields6.text sampleTodoRow.text = some sampleTodoRow.text :=
  ⟨by decide,
   (update_snapshot_semantics sampleState "nope" fields6 listFields6).1 (by decide),
   by decide,
   (update_snapshot_semantics sampleState "t1" fields6 listFields6).2.2.1
     sampleTodoRow (by decide),
   (update_snapshot_semantics sampleState "t1" fields6 listFields6).2.2.2.2.1
     String fields6.notes sampleTodoRow.notes rfl,
   ((update_snapshot_semantics sampleState "t1" fields6 listFields6).2.2.2.2.2
     String String fields6.text sampleTodoRow.text).2 (by decide)⟩

/-- Witness for C7: an unanswered pending request ("a", caller 1) is
rejected with the connection-closed error when the socket closes. -/
theorem close_rejects_all_pending_witness :
    (handleClose (runResponses [("a", 1)] []).1).1 = [] ∧
    (⟨"a", 1, .rejected "Daemon connection closed"⟩ : SettleEvent) ∈
      (handleClose (runResponses [("a", 1)] []).1).2 :=
  ⟨(close_rejects_all_pending [("a", 1)] []).1,
   (close_rejects_all_pending [("a", 1)] []).2.2.1 ("a", 1) (by decide)⟩

/-- Witness for C8: the absent id "nope" fails on both operations with
the store unchanged; the present id "t1" returns the full prior record. -/
theorem mark_done_undone_semantics_witness :
    markTodoDone sampleState "nope" =
      (.error ("Todo not found: " ++ "nope"), sampleState) ∧
    markTodoUndone sampleState "nope" =
      (.error ("Todo not found: " ++ "nope"), sampleState) ∧
    markTodoDone sampleState "t1" =
      (.ok (todoOfRow "t1" sampleTodoRow),
       { sampleState with
          todos := tblSet sampleState.todos "t1" { sampleTodoRow with done := true } }) ∧
    (todoOfRow "t1" sampleTodoRow).done = some sampleTodoRow.done :=
  ⟨((mark_done_undone_semantics sampleState "nope").1 (by decide)).1,
   ((mark_done_undone_semantics sampleState "nope").1 (by decide)).2,
   ((mark_done_undone_semantics sampleState "t1").2 sampleTodoRow (by decide)).1,
   ((mark_done_undone_semantics sampleState "t1").2 sampleTodoRow (by decide)).2.2⟩

/-- Witness for C9: with a nonempty ledger and a failing connection,
the command errors while the persisted ledger is already the popped one. -/
theorem undo_pops_before_replay_witness :
    (popUndoEntries ledger3 1).1 ≠ [] ∧
    (undoCommand ledger3 1 false sampleState).2 = .error "connect failed" ∧
    (undoCommand ledger3 1 false sampleState).1 = (popUndoEntries ledger3 1).2 :=
  ⟨by decide,
   (undo_pops_before_replay ledger3 1 false sampleState).2.2 rfl (by decide),
   (undo_pops_before_replay ledger3 1 false sampleState).1⟩

/-- Witness for C10: deleting `["ghost", "t1"]` succeeds although
"ghost" is absent — single `deleteTodo "ghost"` fails — and "t1" is
removed. -/
theorem batch_delete_skips_absent_witness :
    tblGet sampleState.todos "ghost" = none ∧
    (batchDeleteTodos sampleState ["ghost", "t1"]).1 = .ok () ∧
    deleteTodo sampleState "ghost" =
      (.error ("Todo not found: " ++ "ghost"), sampleState) ∧
    tblGet (batchDeleteTodos sampleState ["ghost", "t1"]).2.todos "t1" = none :=
  ⟨by decide,
   (batch_delete_skips_absent sampleState ["ghost", "t1"]).1,
   (batch_delete_skips_absent sampleState ["ghost", "t1"]).2.2.2 "ghost" (by decide),
   by decide⟩

end Ttt
